import Mathlib

/-!
Verification of the billing-period expansion and payment-record derivation
logic of the society payment portal (`app.py`).

The definitions below are shallow embeddings of the Python source:
* `get_target_months` embeds the helper of the same name (lines 87-96);
  the outer `Option` models the implicit Python `None` returned when the
  `Quarter` branch falls through, and the list elements are `Option String`
  because the Python month value may itself be `None`.
* `natural_key` embeds the natural-sort helper (lines 99-100) built on
  `re.split` over maximal digit runs.
* `auto_amount` embeds the fee computation (lines 185-187).
* `verify_submit` embeds the proof-submission handler of the
  `verify_form` (lines 230-257): validation, month expansion, amount
  splitting, and the rows appended to the ledger.
* `parse_past_dues` embeds the lenient past-dues parsing (lines 152-162).
* `resident_data` embeds the roster lookup (line 146).
Monetary amounts are modelled as rationals (`ℚ`); Python character-level
operations are modelled on ASCII as in the roster data.
-/

/-- The canonical month-name sequence used throughout the app. -/
def monthNames : List String :=
  ["Jan", "Feb", "Mar", "Apr", "May", "Jun", "Jul", "Aug", "Sep", "Oct", "Nov", "Dec"]

/-- `MONTHLY_FEE = 300` (app.py line 15). -/
def MONTHLY_FEE : Nat := 300

/-- Embedding of `get_target_months(p_type, year, qtr=None, month=None)`
(app.py lines 87-96).  Python's implicit `None` return when the quarter
value matches none of Q1..Q4 is the outer `none`; in the final `else`
branch the Python value `month` (possibly `None`) is put into a
one-element list unchanged. -/
def get_target_months (p_type year : String) (qtr month : Option String) :
    Option (List (Option String)) :=
  if p_type = "Year" then
    some (monthNames.map some)
  else if p_type = "Quarter" then
    if qtr = some "Q1" then some (["Jan", "Feb", "Mar"].map some)
    else if qtr = some "Q2" then some (["Apr", "May", "Jun"].map some)
    else if qtr = some "Q3" then some (["Jul", "Aug", "Sep"].map some)
    else if qtr = some "Q4" then some (["Oct", "Nov", "Dec"].map some)
    else none
  else some [month]

/-- Embedding of the fee calculation (app.py lines 185-187), parametrised
by the monthly fee constant. -/
def auto_amount (fee : Nat) (period_type : String) : Nat :=
  if period_type = "Year" then fee * 12
  else if period_type = "Quarter" then fee * 3
  else fee * 1

/-- Python `f"{m} ..."` rendering of a possibly-`None` month value. -/
def pyStr : Option String → String
  | none => "None"
  | some s => s

/-- Embedding of `split_amount` (app.py lines 239-240): the per-month
amount, guarded against an empty month list. -/
def split_amount (amount_paid : ℚ) (n : Nat) : ℚ :=
  if n > 0 then amount_paid / (n : ℚ) else amount_paid

/-- The list of per-row amounts produced for a month list: one copy of
`split_amount` per expanded month (app.py lines 249-255). -/
def split_amounts (amount_paid : ℚ) (months : List (Option String)) : List ℚ :=
  months.map (fun _ => split_amount amount_paid months.length)

/-- One ledger row as appended by the handler (app.py lines 250-254). -/
structure LedgerRow where
  date : String
  plot : String
  name : String
  period : String
  amount : ℚ
  txn : String
  receipt : String
  note : String
  verified : String
deriving DecidableEq

/-- Embedding of the `verify_form` submission handler (app.py lines
230-257).  Validation failures and the `TypeError` raised by
`len(None)` (caught by the surrounding `except`) are `Except.error`;
success carries the list of rows appended to the ledger. -/
def verify_submit (current_time plot_no resident_name period_type selected_year : String)
    (selected_qtr selected_month : Option String) (amount_paid : ℚ)
    (txn_id : String) (uploaded_file paid_confirm : Bool) :
    Except String (List LedgerRow) :=
  if paid_confirm = false then Except.error "Please confirm the checkbox."
  else if txn_id = "" ∧ uploaded_file = false then Except.error "Provide UTR or Screenshot."
  else
    match get_target_months period_type selected_year selected_qtr selected_month with
    | none => Except.error "Error: object of type NoneType has no len()"
    | some target_months =>
      let amt := split_amount amount_paid target_months.length
      let receipt_status := if uploaded_file then "Uploaded" else "None"
      let final_txn := if txn_id = "" then "Screenshot" else txn_id
      Except.ok (target_months.map (fun m =>
        { date := current_time, plot := plot_no, name := resident_name,
          period := pyStr m ++ " " ++ selected_year,
          amount := amt, txn := final_txn, receipt := receipt_status,
          note := "Part of " ++ period_type, verified := "Pending" }))

/-- The rows actually appended to the ledger by a submission: none on a
rejected submission. -/
def appendedRows (r : Except String (List LedgerRow)) : List LedgerRow :=
  match r with
  | Except.ok rows => rows
  | Except.error _ => []

/-- Whether a submission was rejected (an error message was shown). -/
def isRejected (r : Except String (List LedgerRow)) : Bool :=
  match r with
  | Except.ok _ => false
  | Except.error _ => true

/-- One row of the roster `data.csv` after the loader's normalisation
(app.py lines 114-125): lane and plot coerced to strings. -/
structure RosterRow where
  lane : String
  plot : String
  name : String
deriving DecidableEq

/-- Embedding of `df[df['Plot No.'] == plot_no].iloc[0]` (app.py line
146): the first roster row whose plot identifier equals the selected
plot, over the whole roster (not the lane-filtered subset). -/
def resident_data (df : List RosterRow) (plot_no : String) : Option RosterRow :=
  (df.filter (fun r => r.plot == plot_no)).head?

/-- One full run of lookup-then-submit: the selected lane is part of the
run's state (it drives the plot select box upstream) but the resident
lookup itself is keyed on the plot only; the resident name shown is also
the name written into every appended row. -/
def run_submission (df : List RosterRow) (selected_lane plot_no : String)
    (current_time period_type selected_year : String)
    (selected_qtr selected_month : Option String) (amount_paid : ℚ)
    (txn_id : String) (uploaded_file paid_confirm : Bool) :
    Option (String × Except String (List LedgerRow)) :=
  (resident_data df plot_no).map (fun r =>
    (r.name, verify_submit current_time plot_no r.name period_type selected_year
      selected_qtr selected_month amount_paid txn_id uploaded_file paid_confirm))

/-- `str(x).replace(',', '').replace('₹', '')` (app.py line 155). -/
def cleanDues (s : String) : String :=
  String.mk (s.toList.filter (fun c => c ≠ ',' ∧ c ≠ '₹'))

/-- Numeric value of a run of ASCII digits, most significant first. -/
def digitsVal (g : List Char) : Nat :=
  g.foldl (fun n c => n * 10 + (c.toNat - 48)) 0

/-- Model of Python `float(s)` on the decimal forms the app's roster can
contain: optional sign, integer digits, optional fractional part; any
other shape fails. -/
def pyFloatCore (cs : List Char) : Option ℚ :=
  let sr : ℚ × List Char :=
    match cs with
    | '-' :: r => (-1, r)
    | '+' :: r => (1, r)
    | r => (1, r)
  let intPart := sr.2.takeWhile Char.isDigit
  let rest := sr.2.dropWhile Char.isDigit
  match rest with
  | [] => if intPart = [] then none else some (sr.1 * (digitsVal intPart : ℚ))
  | '.' :: fracs =>
      if fracs.all Char.isDigit = true ∧ (intPart ≠ [] ∨ fracs ≠ []) then
        some (sr.1 * ((digitsVal intPart : ℚ) + (digitsVal fracs : ℚ) / (10 : ℚ) ^ fracs.length))
      else none
  | _ => none

/-- Model of Python `float` on a string. -/
def pyFloat (s : String) : Option ℚ := pyFloatCore s.toList

/-- Embedding of the past-dues parsing (app.py lines 152-157): strip
commas and the currency symbol, parse as a float, and default to `0` on
any failure (the bare `except`). -/
def parse_past_dues (s : String) : ℚ := (pyFloat (cleanDues s)).getD 0

/-- The dues banner condition (app.py lines 159-162): the overdue banner
is shown exactly when the parsed dues are positive. -/
def shows_overdue (d : ℚ) : Bool := decide (0 < d)

/-! ### Natural sort key (app.py lines 99-100)

`natural_key(text)` is
`[int(c) if c.isdigit() else c.lower() for c in re.split(r'(\d+)', str(text))]`.
`re.split` with the capturing digit group yields the (possibly empty)
non-digit fragments interleaved with the maximal digit runs, starting and
ending with a fragment.  We embed this split as a left fold over the
characters, and the list entries as `Tok`: a digit run becomes its
numeric value, any other piece its lowercased character codes. -/

/-- A token of a natural sort key: a lowercased text fragment (as its
character code points) or the value of a digit run. -/
inductive Tok where
  | str : List Nat → Tok
  | num : Nat → Tok
deriving DecidableEq

/-- One step of the splitting fold.  State: are we inside a digit run,
the current group's characters, and the finished groups (most recent
first). -/
def splitStep (acc : Bool × List Char × List (List Char)) (c : Char) :
    Bool × List Char × List (List Char) :=
  if c.isDigit = acc.1 then (acc.1, acc.2.1 ++ [c], acc.2.2)
  else (c.isDigit, [c], acc.2.1 :: acc.2.2)

/-- The groups produced by `re.split(r'(\d+)', s)`: alternating
(possibly empty) non-digit fragments and non-empty digit runs, starting
and ending with a fragment. -/
def reSplitD (cs : List Char) : List (List Char) :=
  let st := cs.foldl splitStep (false, [], [])
  if st.1 then ([] :: st.2.1 :: st.2.2).reverse else (st.2.1 :: st.2.2).reverse

/-- `int(c) if c.isdigit() else c.lower()` applied to one group. -/
def tokOf (g : List Char) : Tok :=
  if g ≠ [] ∧ g.all Char.isDigit = true then Tok.num (digitsVal g)
  else Tok.str (g.map (fun c => c.toLower.toNat))

/-- Embedding of `natural_key` (app.py lines 99-100). -/
def natural_key (text : String) : List Tok :=
  (reSplitD text.toList).map tokOf

/-- Comparison of two naturals as Python's `<`/`>` on ints. -/
def natCmp (a b : Nat) : Ordering :=
  if a < b then Ordering.lt else if b < a then Ordering.gt else Ordering.eq

/-- Python string comparison: lexicographic on code points. -/
def lexCmp : List Nat → List Nat → Ordering
  | [], [] => Ordering.eq
  | [], _ :: _ => Ordering.lt
  | _ :: _, [] => Ordering.gt
  | a :: as, b :: bs =>
    match natCmp a b with
    | Ordering.eq => lexCmp as bs
    | o => o

/-- Python comparison of two key elements: ints compare by value,
strings lexicographically, and an int/str mix raises `TypeError`
(modelled as `none`). -/
def tokCmp : Tok → Tok → Option Ordering
  | Tok.num a, Tok.num b => some (natCmp a b)
  | Tok.str a, Tok.str b => some (lexCmp a b)
  | _, _ => none

/-- Python list comparison of two keys: element-wise, first difference
decides, a shorter list that is a prefix of the other is smaller, and a
`TypeError` on any compared element pair aborts (`none`). -/
def pyCompare : List Tok → List Tok → Option Ordering
  | [], [] => some Ordering.eq
  | [], _ :: _ => some Ordering.lt
  | _ :: _, [] => some Ordering.gt
  | a :: as, b :: bs =>
    match tokCmp a b with
    | none => none
    | some Ordering.eq => pyCompare as bs
    | some o => some o

/-- The shape of the group at a position: `true` for a digit run
(non-empty, all digits), `false` for a digit-free fragment. -/
def kindIs : Bool → List Char → Prop
  | true, g => g ≠ [] ∧ g.all Char.isDigit = true
  | false, g => g.all (fun c => !c.isDigit) = true

/-- Validity of the finished-groups stack when the next group to be
closed has kind `b`: below it the kinds alternate down to a first
fragment. -/
def pushOK : Bool → List (List Char) → Prop
  | b, [] => b = false
  | b, g :: gs => kindIs (!b) g ∧ pushOK (!b) gs

/-- Alternation of group kinds from a given starting kind. -/
def goodChain : Bool → List (List Char) → Prop
  | _, [] => True
  | b, g :: gs => kindIs b g ∧ goodChain (!b) gs

/-- Whether a key token is an int. -/
def tokIsNum : Tok → Bool
  | Tok.num _ => true
  | Tok.str _ => false

/-- Alternation of token kinds from a given starting kind
(`false` = string fragment first). -/
def altFrom : Bool → List Tok → Prop
  | _, [] => True
  | b, t :: ts => tokIsNum t = b ∧ altFrom (!b) ts

/-! ### Order lemmas for the natural sort key -/

theorem natCmp_eq_iff (a b : Nat) : natCmp a b = Ordering.eq ↔ a = b := by
  unfold natCmp; split_ifs <;> simp <;> omega

theorem natCmp_swap (a b : Nat) : natCmp b a = (natCmp a b).swap := by
  unfold natCmp; split_ifs <;> simp [Ordering.swap] <;> omega

theorem natCmp_lt_trans {a b c : Nat} (h1 : natCmp a b = Ordering.lt)
    (h2 : natCmp b c = Ordering.lt) : natCmp a c = Ordering.lt := by
  unfold natCmp at *; split_ifs at * <;> simp_all <;> omega

theorem lexCmp_eq_iff : ∀ x y : List Nat, lexCmp x y = Ordering.eq ↔ x = y := by
  intro x
  induction x with
  | nil => intro y; cases y <;> simp [lexCmp]
  | cons a as ih =>
    intro y
    cases y with
    | nil => simp [lexCmp]
    | cons b bs =>
      rcases h : natCmp a b with _ | _ | _
      · simp [lexCmp, h]
        intro hab; rw [hab, (natCmp_eq_iff b b).mpr rfl] at h; exact absurd h (by simp)
      · have hab : a = b := (natCmp_eq_iff a b).mp h
        subst hab
        simp [lexCmp, h, ih]
      · simp [lexCmp, h]
        intro hab; rw [hab, (natCmp_eq_iff b b).mpr rfl] at h; exact absurd h (by simp)

theorem lexCmp_swap : ∀ x y : List Nat, lexCmp y x = (lexCmp x y).swap := by
  intro x
  induction x with
  | nil => intro y; cases y <;> rfl
  | cons a as ih =>
    intro y
    cases y with
    | nil => rfl
    | cons b bs =>
      show (match natCmp b a with
            | Ordering.eq => lexCmp bs as
            | o => o) = _
      rw [natCmp_swap a b]
      rcases h : natCmp a b with _ | _ | _ <;> simp [lexCmp, h, Ordering.swap, ih bs]

theorem lexCmp_lt_trans : ∀ x y z : List Nat, lexCmp x y = Ordering.lt →
    lexCmp y z = Ordering.lt → lexCmp x z = Ordering.lt := by
  intro x
  induction x with
  | nil =>
    intro y z h1 h2
    cases y with
    | nil => simp [lexCmp] at h1
    | cons b bs =>
      cases z with
      | nil => simp [lexCmp] at h2
      | cons c cs => rfl
  | cons a as ih =>
    intro y z h1 h2
    cases y with
    | nil => simp [lexCmp] at h1
    | cons b bs =>
      cases z with
      | nil => simp [lexCmp] at h2
      | cons c cs =>
        rcases hab : natCmp a b with _ | _ | _ <;>
          rcases hbc : natCmp b c with _ | _ | _ <;>
          simp [lexCmp, hab, hbc] at h1 h2
        · have hac := natCmp_lt_trans hab hbc
          simp [lexCmp, hac]
        · have hac : natCmp a c = Ordering.lt := by
            rw [← (natCmp_eq_iff b c).mp hbc]; exact hab
          simp [lexCmp, hac]
        · have hac : natCmp a c = Ordering.lt := by
            rw [(natCmp_eq_iff a b).mp hab]; exact hbc
          simp [lexCmp, hac]
        · have hac : natCmp a c = Ordering.eq := by
            rw [(natCmp_eq_iff a b).mp hab, (natCmp_eq_iff b c).mp hbc]
            exact (natCmp_eq_iff c c).mpr rfl
          simp [lexCmp, hac]
          exact ih bs cs h1 h2

theorem tokCmp_eq_iff : ∀ t u : Tok, tokCmp t u = some Ordering.eq ↔ t = u := by
  intro t u
  cases t <;> cases u <;> simp [tokCmp, natCmp_eq_iff, lexCmp_eq_iff]

theorem tokCmp_swap : ∀ t u : Tok, tokCmp u t = (tokCmp t u).map Ordering.swap := by
  intro t u
  cases t <;> cases u <;> simp [tokCmp]
  · exact lexCmp_swap _ _
  · exact natCmp_swap _ _

theorem tokCmp_lt_trans : ∀ t u v : Tok, tokCmp t u = some Ordering.lt →
    tokCmp u v = some Ordering.lt → tokCmp t v = some Ordering.lt := by
  intro t u v h1 h2
  cases t <;> cases u <;> cases v <;> simp [tokCmp] at h1 h2 ⊢
  · exact lexCmp_lt_trans _ _ _ h1 h2
  · exact natCmp_lt_trans h1 h2

theorem pyCompare_eq_iff : ∀ x y : List Tok, pyCompare x y = some Ordering.eq ↔ x = y := by
  intro x
  induction x with
  | nil => intro y; cases y <;> simp [pyCompare]
  | cons t ts ih =>
    intro y
    cases y with
    | nil => simp [pyCompare]
    | cons u us =>
      rcases h : tokCmp t u with _ | o
      · simp [pyCompare, h]
        intro htu
        rw [htu, (tokCmp_eq_iff u u).mpr rfl] at h
        exact absurd h (by simp)
      · rcases o with _ | _ | _
        · simp [pyCompare, h]
          intro htu
          rw [htu, (tokCmp_eq_iff u u).mpr rfl] at h
          simp at h
        · have htu : t = u := (tokCmp_eq_iff t u).mp h
          subst htu
          simp [pyCompare, h, ih]
        · simp [pyCompare, h]
          intro htu
          rw [htu, (tokCmp_eq_iff u u).mpr rfl] at h
          simp at h

theorem pyCompare_swap : ∀ x y : List Tok, pyCompare y x = (pyCompare x y).map Ordering.swap := by
  intro x
  induction x with
  | nil => intro y; cases y <;> rfl
  | cons t ts ih =>
    intro y
    cases y with
    | nil => rfl
    | cons u us =>
      show (match tokCmp u t with
            | none => none
            | some Ordering.eq => pyCompare us ts
            | some o => some o) = _
      rw [tokCmp_swap t u]
      rcases h : tokCmp t u with _ | o
      · simp [pyCompare, h]
      · rcases o with _ | _ | _ <;> simp [pyCompare, h, Ordering.swap, ih us]

theorem pyCompare_lt_trans : ∀ x y z : List Tok, pyCompare x y = some Ordering.lt →
    pyCompare y z = some Ordering.lt → pyCompare x z = some Ordering.lt := by
  intro x
  induction x with
  | nil =>
    intro y z h1 h2
    cases y with
    | nil => simp [pyCompare] at h1
    | cons u us =>
      cases z with
      | nil => simp [pyCompare] at h2
      | cons v vs => rfl
  | cons t ts ih =>
    intro y z h1 h2
    cases y with
    | nil => simp [pyCompare] at h1
    | cons u us =>
      cases z with
      | nil =>
        rcases h : tokCmp u t with _ | o <;> simp [pyCompare] at h2
      | cons v vs =>
        rcases htu : tokCmp t u with _ | o1 <;> simp [pyCompare, htu] at h1
        rcases huv : tokCmp u v with _ | o2 <;> simp [pyCompare, huv] at h2
        rcases o1 with _ | _ | _ <;> rcases o2 with _ | _ | _ <;> simp at h1 h2
        · have htv := tokCmp_lt_trans t u v htu huv
          simp [pyCompare, htv]
        · have htv : tokCmp t v = some Ordering.lt := by
            rw [← (tokCmp_eq_iff u v).mp huv]; exact htu
          simp [pyCompare, htv]
        · have htv : tokCmp t v = some Ordering.lt := by
            rw [(tokCmp_eq_iff t u).mp htu]; exact huv
          simp [pyCompare, htv]
        · have htv : tokCmp t v = some Ordering.eq := by
            rw [(tokCmp_eq_iff t u).mp htu, (tokCmp_eq_iff u v).mp huv]
            exact (tokCmp_eq_iff v v).mpr rfl
          simp [pyCompare, htv]
          exact ih us vs h1 h2

/-! ### The shape of `natural_key`: string fragments and digit runs alternate -/

theorem foldl_splitStep_inv (cs : List Char) :
    ∀ inRun (cur : List Char) gs, kindIs inRun cur → pushOK inRun gs →
      kindIs (cs.foldl splitStep (inRun, cur, gs)).1 (cs.foldl splitStep (inRun, cur, gs)).2.1 ∧
      pushOK (cs.foldl splitStep (inRun, cur, gs)).1 (cs.foldl splitStep (inRun, cur, gs)).2.2 := by
  induction cs with
  | nil => intro inRun cur gs h1 h2; exact ⟨h1, h2⟩
  | cons c cs ih =>
    intro inRun cur gs h1 h2
    simp only [List.foldl_cons]
    by_cases hd : c.isDigit = inRun
    · have hstep : splitStep (inRun, cur, gs) c = (inRun, cur ++ [c], gs) := by
        simp [splitStep, hd]
      rw [hstep]
      apply ih
      · cases inRun with
        | false =>
          simp only [kindIs] at h1 ⊢
          simp [List.all_append, h1, hd]
        | true =>
          obtain ⟨hne, hall⟩ := h1
          refine ⟨by simp, ?_⟩
          simp [List.all_append, hall, hd]
      · exact h2
    · have hc : c.isDigit = !inRun := by cases inRun <;> simp_all
      have hstep : splitStep (inRun, cur, gs) c = (!inRun, [c], cur :: gs) := by
        simp [splitStep, hd, hc]
      rw [hstep]
      apply ih
      · cases inRun with
        | false => exact ⟨by simp, by simp [hc]⟩
        | true => simp only [kindIs]; simp [hc]
      · show kindIs (!!inRun) cur ∧ pushOK (!!inRun) gs
        rw [Bool.not_not]
        exact ⟨h1, h2⟩

theorem pushOK_chain : ∀ gs (b : Bool) tail, pushOK b gs → goodChain b tail →
    goodChain false (gs.reverse ++ tail) := by
  intro gs
  induction gs with
  | nil =>
    intro b tail h1 h2
    simp only [pushOK] at h1
    subst h1
    simpa using h2
  | cons g gs ih =>
    intro b tail h1 h2
    obtain ⟨hk, hp⟩ := h1
    have hre : (g :: gs).reverse ++ tail = gs.reverse ++ (g :: tail) := by simp
    rw [hre]
    refine ih (!b) (g :: tail) hp ⟨hk, ?_⟩
    rw [Bool.not_not]
    exact h2

theorem reSplitD_good (cs : List Char) : goodChain false (reSplitD cs) := by
  unfold reSplitD
  obtain ⟨h1, h2⟩ := foldl_splitStep_inv cs false [] [] (by simp [kindIs]) rfl
  set st := cs.foldl splitStep (false, [], []) with hst
  by_cases hb : st.1 = true
  · rw [if_pos hb]
    rw [hb] at h1 h2
    have hre : ([] :: st.2.1 :: st.2.2).reverse = st.2.2.reverse ++ [st.2.1, []] := by simp
    rw [hre]
    exact pushOK_chain st.2.2 true [st.2.1, []] h2 ⟨h1, by simp [kindIs], trivial⟩
  · rw [if_neg hb]
    have hb2 : st.1 = false := by simpa using hb
    rw [hb2] at h1 h2
    have hre : (st.2.1 :: st.2.2).reverse = st.2.2.reverse ++ [st.2.1] := by simp
    rw [hre]
    exact pushOK_chain st.2.2 false [st.2.1] h2 ⟨h1, trivial⟩

theorem tokOf_kind_true {g : List Char} (h : kindIs true g) : tokIsNum (tokOf g) = true := by
  obtain ⟨hne, hall⟩ := h
  simp [tokOf, hne, hall, tokIsNum]

theorem tokOf_kind_false {g : List Char} (h : kindIs false g) : tokIsNum (tokOf g) = false := by
  cases g with
  | nil => simp [tokOf, tokIsNum]
  | cons c cs =>
    simp only [kindIs, List.all_cons, Bool.and_eq_true] at h
    have hnc : ¬(c :: cs ≠ [] ∧ (c :: cs).all Char.isDigit = true) := by
      rintro ⟨-, hall⟩
      simp only [List.all_cons, Bool.and_eq_true] at hall
      rcases h with ⟨h1, -⟩
      rw [hall.1] at h1
      simp at h1
    unfold tokOf
    rw [if_neg hnc]
    rfl

theorem goodChain_alt : ∀ (G : List (List Char)) (b : Bool), goodChain b G →
    altFrom b (G.map tokOf) := by
  intro G
  induction G with
  | nil => intro b _; trivial
  | cons g G ih =>
    intro b h
    obtain ⟨hk, hc⟩ := h
    refine ⟨?_, ih (!b) hc⟩
    cases b
    · exact tokOf_kind_false hk
    · exact tokOf_kind_true hk

theorem natural_key_alt (s : String) : altFrom false (natural_key s) :=
  goodChain_alt _ _ (reSplitD_good s.toList)

theorem alt_comparable : ∀ (x : List Tok) (b : Bool) (y : List Tok),
    altFrom b x → altFrom b y → (pyCompare x y).isSome = true := by
  intro x
  induction x with
  | nil => intro b y _ _; cases y <;> simp [pyCompare]
  | cons t ts ih =>
    intro b y hx hy
    cases y with
    | nil => simp [pyCompare]
    | cons u us =>
      obtain ⟨ht, hts⟩ := hx
      obtain ⟨hu, hus⟩ := hy
      have hcmp : ∃ o, tokCmp t u = some o := by
        cases t <;> cases u <;> simp [tokIsNum] at ht hu <;> simp [tokCmp]
        · rw [ht] at hu; exact absurd hu (by simp)
        · rw [ht] at hu; exact absurd hu (by simp)
      obtain ⟨o, ho⟩ := hcmp
      rcases o with _ | _ | _
      · simp [pyCompare, ho]
      · simp only [pyCompare, ho]
        exact ih (!b) us hts hus
      · simp [pyCompare, ho]

/-! ### Remaining helper lemmas -/

theorem sum_map_const (L : List (Option String)) (c : ℚ) :
    (L.map (fun _ => c)).sum = (L.length : ℚ) * c := by
  induction L with
  | nil => simp
  | cons a L ih => simp [ih]; ring

theorem filter_head_eq_find {α : Type} (p : α → Bool) :
    ∀ l : List α, (l.filter p).head? = l.find? p := by
  intro l
  induction l with
  | nil => rfl
  | cons a l ih =>
    by_cases h : p a = true
    · simp [List.filter_cons, List.find?_cons, h]
    · have h2 : p a = false := by simpa using h
      simp [List.filter_cons, List.find?_cons, h2, ih]

/-! ### Claim theorems -/

/-- C2: for every year, expansion for `Year` is the canonical 12-month
Jan..Dec sequence; for every quarter Q1..Q4 the expansion for `Quarter`
is exactly the three contiguous calendar months of that quarter in
calendar order (months `3*i .. 3*i+2` of the canonical sequence); for
every month value the expansion for `Month` is the one-element list of
that month. -/
theorem expand_period_correct (y : String) (q m M : Option String) :
    get_target_months "Year" y q m = some (monthNames.map some)
  ∧ monthNames.length = 12
  ∧ (∀ i : Fin 4, get_target_months "Quarter" y (some ("Q" ++ toString (i.val + 1))) m
      = some (((monthNames.drop (3 * i.val)).take 3).map some))
  ∧ get_target_months "Month" y q M = some [M] := by
  refine ⟨rfl, rfl, ?_, rfl⟩
  intro i
  fin_cases i <;> rfl

/-- C4: the computed total due is `12 × fee` for `Year`, `3 × fee` for
`Quarter`, and `1 × fee` for `Month`. -/
theorem due_per_period_unit (f : Nat) :
    auto_amount f "Year" = 12 * f
  ∧ auto_amount f "Quarter" = 3 * f
  ∧ auto_amount f "Month" = 1 * f := by
  refine ⟨?_, ?_, ?_⟩ <;> simp [auto_amount] <;> ring

/-- C9: with period type `Quarter` and a quarter value outside
Q1..Q4 (including `None`), `get_target_months` returns Python `None`
rather than a list; with any period type other than `Year` and
`Quarter` it returns the one-element list `[month]` even when the month
is `None`. -/
theorem get_target_months_fallthrough (year ptype : String) (qtr month : Option String)
    (hq : qtr ≠ some "Q1" ∧ qtr ≠ some "Q2" ∧ qtr ≠ some "Q3" ∧ qtr ≠ some "Q4")
    (hp : ptype ≠ "Year" ∧ ptype ≠ "Quarter") :
    get_target_months "Quarter" year qtr month = none
  ∧ get_target_months ptype year qtr month = some [month] := by
  obtain ⟨h1, h2, h3, h4⟩ := hq
  obtain ⟨p1, p2⟩ := hp
  constructor
  · simp [get_target_months, h1, h2, h3, h4]
  · simp [get_target_months, p1, p2]

/-- Witness for C9 at the concrete quarter value `None` and period type
`"Month"`. -/
theorem get_target_months_fallthrough_witness :
    get_target_months "Quarter" "2024" none (some "Jan") = none
  ∧ get_target_months "Month" "2024" none (some "Jan") = some [some "Jan"] :=
  get_target_months_fallthrough "2024" "Month" none (some "Jan")
    (by refine ⟨?_, ?_, ?_, ?_⟩ <;> decide) (by refine ⟨?_, ?_⟩ <;> decide)

/-- C6: the natural sort key compares embedded numbers numerically,
`key("Plot 2") < key("Plot 10") < key("Plot 10A")`, and non-digit
fragments case-insensitively, `key("lane1") == key("Lane1")`. -/
theorem natural_key_examples :
    pyCompare (natural_key "Plot 2") (natural_key "Plot 10") = some Ordering.lt
  ∧ pyCompare (natural_key "Plot 10") (natural_key "Plot 10A") = some Ordering.lt
  ∧ natural_key "lane1" = natural_key "Lane1" := by
  refine ⟨by decide, by decide, by decide⟩

/-- C7: comparison of natural sort keys is total and consistent with
equality: any two keys are comparable (no `TypeError` can arise because
string fragments and numeric runs alternate identically in every key),
comparison returns equality exactly when the two normalised keys (digit
runs read as numbers, non-digit fragments lowercased) are identical, the
order is antisymmetric under swapping the arguments, and it is
transitive. -/
theorem natural_key_total_order (a b c : String) :
    (pyCompare (natural_key a) (natural_key b)).isSome = true
  ∧ (pyCompare (natural_key a) (natural_key b) = some Ordering.eq ↔
       natural_key a = natural_key b)
  ∧ (pyCompare (natural_key a) (natural_key b) = some Ordering.lt ↔
       pyCompare (natural_key b) (natural_key a) = some Ordering.gt)
  ∧ (pyCompare (natural_key a) (natural_key b) = some Ordering.lt →
     pyCompare (natural_key b) (natural_key c) = some Ordering.lt →
     pyCompare (natural_key a) (natural_key c) = some Ordering.lt) := by
  refine ⟨alt_comparable _ false _ (natural_key_alt a) (natural_key_alt b),
    pyCompare_eq_iff _ _, ?_, pyCompare_lt_trans _ _ _⟩
  rw [pyCompare_swap (natural_key a) (natural_key b)]
  rcases hx : pyCompare (natural_key a) (natural_key b) with _ | o
  · simp
  · rcases o with _ | _ | _ <;> simp [Ordering.swap]

/-- Witness for C7: totality at two concrete keys of different shapes,
and transitivity chained through the three concrete example labels. -/
theorem natural_key_total_order_witness :
    (pyCompare (natural_key "A5") (natural_key "lane1")).isSome = true
  ∧ pyCompare (natural_key "Plot 2") (natural_key "Plot 10A") = some Ordering.lt := by
  have h := natural_key_total_order "Plot 2" "Plot 10" "Plot 10A"
  have h2 := natural_key_total_order "A5" "lane1" "x"
  exact ⟨h2.1, h.2.2.2 (by decide) (by decide)⟩

/-- C8: past-dues parsing strips currency formatting and parses to a
number, defaulting to `0` on any parse failure: `"1,200"` parses to
`1200` and the plot is shown as overdue, an unparsable value such as
`"N/A"` yields `0` and the plot is shown as having no past dues, and in
general the parse result always falls back to `0` when the cleaned
string fails to parse. -/
theorem past_dues_parsing :
    parse_past_dues "1,200" = 1200
  ∧ shows_overdue (parse_past_dues "1,200") = true
  ∧ parse_past_dues "N/A" = 0
  ∧ shows_overdue (parse_past_dues "N/A") = false
  ∧ ∀ s : String, parse_past_dues s = (pyFloat (cleanDues s)).getD 0 := by
  have h1 : pyFloat (cleanDues "1,200") = some (1 * ((1200 : Nat) : ℚ)) := rfl
  have h2 : pyFloat (cleanDues "N/A") = none := rfl
  refine ⟨?_, ?_, ?_, ?_, fun s => rfl⟩
  · rw [parse_past_dues, h1]
    norm_num
  · norm_num [shows_overdue, parse_past_dues, h1]
  · rw [parse_past_dues, h2]
    rfl
  · rw [shows_overdue, parse_past_dues, h2]
    rfl

/-- C10: the resident shown and written into appended ledger rows is the
first roster row whose plot identifier equals the selected plot,
independent of the selected lane: two runs agreeing on roster and plot
but differing in lane produce identical output, the lookup is exactly
first-match on the plot key, and with the plot `"A5"` duplicated in
lanes L1 and L2 a run selecting lane L2 still records resident
`"Alice"` of lane L1. -/
theorem resident_lookup_lane_independent (df : List RosterRow)
    (lane1 lane2 plot current_time ptype year : String) (q m : Option String)
    (A : ℚ) (txn : String) (uploaded confirm : Bool) :
    run_submission df lane1 plot current_time ptype year q m A txn uploaded confirm
      = run_submission df lane2 plot current_time ptype year q m A txn uploaded confirm
  ∧ resident_data df plot = df.find? (fun r => r.plot == plot)
  ∧ (run_submission [⟨"L1", "A5", "Alice"⟩, ⟨"L2", "A5", "Bob"⟩] lane2 "A5" current_time
       ptype year q m A txn uploaded confirm).map Prod.fst = some "Alice" := by
  refine ⟨rfl, filter_head_eq_find _ df, ?_⟩
  have hres : resident_data [⟨"L1", "A5", "Alice"⟩, ⟨"L2", "A5", "Bob"⟩] "A5"
      = some ⟨"L1", "A5", "Alice"⟩ := rfl
  simp [run_submission, hres]

/-- C3: for a non-empty month list every month is assigned
`amount / length` and the per-row amounts sum back to the amount
exactly; for the empty month list the guard keeps the whole amount as
the single value instead of dividing by zero. -/
theorem split_amount_correct (A : ℚ) (L : List (Option String)) (h : L ≠ []) :
    (∀ x ∈ split_amounts A L, x = A / (L.length : ℚ))
  ∧ (split_amounts A L).sum = A
  ∧ split_amount A 0 = A := by
  have hlen : L.length ≠ 0 := by simpa using h
  have hq : (L.length : ℚ) ≠ 0 := Nat.cast_ne_zero.mpr hlen
  have hsa : split_amount A L.length = A / (L.length : ℚ) := by
    unfold split_amount
    rw [if_pos (Nat.pos_of_ne_zero hlen)]
  refine ⟨?_, ?_, ?_⟩
  · intro x hx
    rw [split_amounts, List.mem_map] at hx
    obtain ⟨a, -, ha⟩ := hx
    rw [← ha, hsa]
  · rw [split_amounts, sum_map_const, hsa, mul_comm, div_mul_cancel₀ A hq]
  · simp [split_amount]

/-- Witness for C3 at amount 900 over the three months of Q2. -/
theorem split_amount_correct_witness :
    (split_amounts 900 [some "Apr", some "May", some "Jun"]).sum = 900
  ∧ split_amount 900 0 = 900 := by
  have h := split_amount_correct 900 [some "Apr", some "May", some "Jun"] (by simp)
  exact ⟨h.2.1, h.2.2⟩

/-- C5: a submission with an empty transaction reference and no uploaded
proof is rejected with a validation error and appends zero ledger rows;
a submission without the confirmation checkbox is likewise rejected and
appends zero rows. -/
theorem rejected_submission_no_rows (current_time plot name ptype year : String)
    (q m : Option String) (A : ℚ) (txn : String) (uploaded confirm : Bool) :
    ((txn = "" ∧ uploaded = false) →
      isRejected (verify_submit current_time plot name ptype year q m A txn uploaded confirm) = true
      ∧ appendedRows (verify_submit current_time plot name ptype year q m A txn uploaded confirm) = [])
  ∧ (confirm = false →
      isRejected (verify_submit current_time plot name ptype year q m A txn uploaded confirm) = true
      ∧ appendedRows (verify_submit current_time plot name ptype year q m A txn uploaded confirm) = []) := by
  constructor
  · rintro ⟨h1, h2⟩
    cases confirm
    · simp [verify_submit, isRejected, appendedRows]
    · simp [verify_submit, h1, h2, isRejected, appendedRows]
  · rintro rfl
    simp [verify_submit, isRejected, appendedRows]

/-- Witness for C5: empty reference, no proof, checkbox ticked. -/
theorem rejected_submission_no_rows_witness :
    isRejected (verify_submit "t" "A5" "Alice" "Quarter" "2024" (some "Q2") none 900 "" false true) = true
  ∧ appendedRows (verify_submit "t" "A5" "Alice" "Quarter" "2024" (some "Q2") none 900 "" false true) = [] :=
  (rejected_submission_no_rows "t" "A5" "Alice" "Quarter" "2024" (some "Q2") none 900 "" false true).1
    ⟨rfl, rfl⟩

/-- C1: a valid submission for Quarter Q2 of 2024 with amount paid 900
appends exactly three ledger rows with period labels "Apr 2024",
"May 2024", "Jun 2024" in that order, each with amount 300 and
verification status "Pending". -/
theorem submit_q2_2024_three_rows (current_time plot name txn : String) (uploaded : Bool)
    (hproof : ¬(txn = "" ∧ uploaded = false)) :
    (verify_submit current_time plot name "Quarter" "2024" (some "Q2") none 900 txn uploaded true).map
        (fun rows => (rows.map LedgerRow.period, rows.map LedgerRow.amount, rows.map LedgerRow.verified))
      = Except.ok (["Apr 2024", "May 2024", "Jun 2024"], ([300, 300, 300] : List ℚ),
          ["Pending", "Pending", "Pending"]) := by
  have hm : get_target_months "Quarter" "2024" (some "Q2") none
      = some (["Apr", "May", "Jun"].map some) := rfl
  have hamt : split_amount 900 3 = 300 := by
    norm_num [split_amount]
  unfold verify_submit
  rw [if_neg (by simp), if_neg hproof, hm]
  simp [pyStr, hamt, Except.map]

/-- Witness for C1 with a concrete transaction reference and no
uploaded file. -/
theorem submit_q2_2024_three_rows_witness :
    (verify_submit "t" "A5" "Alice" "Quarter" "2024" (some "Q2") none 900 "TX123" false true).map
        (fun rows => (rows.map LedgerRow.period, rows.map LedgerRow.amount, rows.map LedgerRow.verified))
      = Except.ok (["Apr 2024", "May 2024", "Jun 2024"], ([300, 300, 300] : List ℚ),
          ["Pending", "Pending", "Pending"]) :=
  submit_q2_2024_three_rows "t" "A5" "Alice" "TX123" false (by simp)
